import Mathlib

/-!
# Verification of the Drift motion-synthesis and compositing core

Shallow embedding of the Rust sources under `src-tauri/src/` and proofs of
the spec claims about them.

Conventions used throughout:

* `f64`/`f32` arithmetic is modelled exactly: transcendental code (the spring
  solver and its easing curves, which call `exp`/`sin`/`cos`/`sqrt`) is
  embedded over `ℝ`, purely arithmetic code (the zoom-segment builder, the
  zoom-bounds computation, the shake filter, the padding/stripping byte
  arithmetic) over `ℚ`/`ℕ` so that it stays executable.
* A source comparison of the form `sqrt e < c` with `c > 0` is rendered over
  `ℚ` as the equivalent `e < c^2` (both sides are nonnegative); each such
  rendering is noted at the definition and, for the two-square-root case,
  proved equivalent to the `Real.sqrt` form (`sqrt_sum_lt_iff`).
* Decimal literals of the source are written as the exact rationals they
  denote in the source text (e.g. `0.15` as `15/100`).
* Rust `struct` fields keep their names except `end`, a Lean keyword,
  rendered as `stop`.
-/

namespace Drift

/-! ## spring_physics.rs -/

namespace Spring

/-- `SpringConfig` from `rendering/spring_physics.rs`. -/
structure SpringConfig where
  tension : ℝ
  mass : ℝ
  friction : ℝ

/-- `SpringConfig::cursor_default()`. -/
noncomputable def SpringConfig.cursor_default : SpringConfig :=
  { tension := 100, mass := 1, friction := 20 }

/-- 2D spring state: `SpringSimulation` from `rendering/spring_physics.rs`.
The two axes of each `[f32; 2]` are modelled as a pair. -/
structure SpringSimulation where
  config : SpringConfig
  position : ℝ × ℝ
  velocity : ℝ × ℝ
  target : ℝ × ℝ

/-- `REST_DISPLACEMENT_THRESHOLD = 0.00001`. -/
noncomputable def REST_DISPLACEMENT_THRESHOLD : ℝ := 1/100000

/-- `REST_VELOCITY_THRESHOLD = 0.0001`. -/
noncomputable def REST_VELOCITY_THRESHOLD : ℝ := 1/10000

/-- `CRITICAL_EPSILON = 0.01`. -/
noncomputable def CRITICAL_EPSILON : ℝ := 1/100

/-- `solve_spring_1d` from `rendering/spring_physics.rs`: the analytical 1D
solver with the three damping regimes, embedded over `ℝ`. Returns
`(new_displacement, new_velocity)`. -/
noncomputable def solve_spring_1d (displacement velocity t omega0 zeta : ℝ) :
    ℝ × ℝ :=
  if zeta < 1 - CRITICAL_EPSILON then
    -- Underdamped — oscillatory decay
    let omega_d := omega0 * Real.sqrt (1 - zeta * zeta)
    let decay := Real.exp (-zeta * omega0 * t)
    let cos_term := Real.cos (omega_d * t)
    let sin_term := Real.sin (omega_d * t)
    let a := displacement
    let b := (velocity + displacement * zeta * omega0) / max omega_d (1/10000)
    (decay * (a * cos_term + b * sin_term),
     decay * ((b * omega_d - a * zeta * omega0) * cos_term
        - (a * omega_d + b * zeta * omega0) * sin_term))
  else if zeta > 1 + CRITICAL_EPSILON then
    -- Overdamped — exponential decay, no oscillation
    let sqrt_term := Real.sqrt (zeta * zeta - 1)
    let s1 := -omega0 * (zeta - sqrt_term)
    let s2 := -omega0 * (zeta + sqrt_term)
    let denom := s1 - s2
    if |denom| < 1/10^10 then
      -- Near-critical fallback
      let s_avg := (1/2) * (s1 + s2)
      let decay := Real.exp (s_avg * t)
      (decay * (displacement + (velocity - displacement * s_avg) * t),
       decay * ((velocity - displacement * s_avg)
          + s_avg * (displacement + (velocity - displacement * s_avg) * t)))
    else
      let c1 := (velocity - displacement * s2) / denom
      let c2 := displacement - c1
      let e1 := Real.exp (s1 * t)
      let e2 := Real.exp (s2 * t)
      (c1 * e1 + c2 * e2, c1 * s1 * e1 + c2 * s2 * e2)
  else
    -- Critically damped
    let decay := Real.exp (-omega0 * t)
    let a := displacement
    let b := velocity + displacement * omega0
    (decay * (a + b * t), decay * (b - omega0 * (a + b * t)))

/-- The body of `SpringSimulation::run` after its `dt_ms <= 0` early return,
up to and including the two per-axis `solve_spring_1d` calls: returns the
pair of per-axis `(new_disp, new_vel)` results. Factored out of `run` so the
rest-detection condition can be referred to in statements. -/
noncomputable def run_solved (s : SpringSimulation) (dt_ms : ℝ) :
    (ℝ × ℝ) × (ℝ × ℝ) :=
  let t := dt_ms / 1000
  let mass := max s.config.mass (1/1000)
  let stiffness := s.config.tension
  let damping := s.config.friction
  let omega0 := Real.sqrt (stiffness / mass)
  let zeta := damping / (2 * Real.sqrt (stiffness * mass))
  let disp_x := s.position.1 - s.target.1
  let disp_y := s.position.2 - s.target.2
  (solve_spring_1d disp_x s.velocity.1 t omega0 zeta,
   solve_spring_1d disp_y s.velocity.2 t omega0 zeta)

/-- `SpringSimulation::run`: advances the state by `dt_ms` milliseconds and
returns the new state together with the returned position (`self.position`
at the point of `return`). -/
noncomputable def run (s : SpringSimulation) (dt_ms : ℝ) :
    SpringSimulation × (ℝ × ℝ) :=
  if dt_ms ≤ 0 then (s, s.position)
  else
    let nx := (run_solved s dt_ms).1
    let ny := (run_solved s dt_ms).2
    let position : ℝ × ℝ := (s.target.1 + nx.1, s.target.2 + ny.1)
    let velocity : ℝ × ℝ := (nx.2, ny.2)
    let disp_mag := Real.sqrt (nx.1 * nx.1 + ny.1 * ny.1)
    let vel_mag := Real.sqrt (nx.2 * nx.2 + ny.2 * ny.2)
    if disp_mag < REST_DISPLACEMENT_THRESHOLD ∧
        vel_mag < REST_VELOCITY_THRESHOLD then
      ({ s with position := s.target, velocity := (0, 0) }, s.target)
    else
      ({ s with position := position, velocity := velocity }, position)

/-- `SpringSimulation::is_at_rest`. -/
noncomputable def is_at_rest (s : SpringSimulation) : Prop :=
  let dx := s.position.1 - s.target.1
  let dy := s.position.2 - s.target.2
  let disp := Real.sqrt (dx * dx + dy * dy)
  let vel := Real.sqrt (s.velocity.1 * s.velocity.1
      + s.velocity.2 * s.velocity.2)
  disp < REST_DISPLACEMENT_THRESHOLD ∧ vel < REST_VELOCITY_THRESHOLD

end Spring

/-! ## zoom.rs — shared data types and constants

The segment generator is purely rational arithmetic and is embedded over `ℚ`
(executable); the evaluator calls the transcendental spring easing curves and
is embedded over `ℝ`. The constants are defined once over `ℚ` and coerced
where the evaluator needs them. -/

namespace Zoom

/-- `ClickEvent` from `commands/zoom.rs` (`time` in ms, coordinates
normalized). -/
structure ClickEvent where
  time : ℚ
  x : ℚ
  y : ℚ
  down : Bool
deriving DecidableEq

/-- `MoveEvent` from `commands/zoom.rs`. -/
structure MoveEvent where
  time : ℚ
  x : ℚ
  y : ℚ
deriving DecidableEq

/-- `ZoomSegment` from `commands/zoom.rs` (`start`/`end` in seconds), with
the scalar type as a parameter so the generator can use `ℚ` and the
evaluator `ℝ`. The source field `end` is a Lean keyword and is rendered
`stop`. -/
structure ZoomSegment (α : Type) where
  start : α
  stop : α
  amount : α
deriving DecidableEq

/-- `ZoomState` from `commands/zoom.rs`: camera center and scale. -/
structure ZoomState where
  x : ℝ
  y : ℝ
  scale : ℝ

/-- `ZOOM_DURATION = 1.0` (seconds). -/
def ZOOM_DURATION : ℚ := 1

/-- `CLICK_GROUP_TIME_THRESHOLD_SECS = 2.5`. -/
def CLICK_GROUP_TIME_THRESHOLD_SECS : ℚ := 5/2

/-- `CLICK_GROUP_SPATIAL_THRESHOLD = 0.15`. -/
def CLICK_GROUP_SPATIAL_THRESHOLD : ℚ := 15/100

/-- `CLICK_PRE_PADDING = 0.4`. -/
def CLICK_PRE_PADDING : ℚ := 2/5

/-- `CLICK_POST_PADDING = 2.0`. -/
def CLICK_POST_PADDING : ℚ := 2

/-- `MERGE_GAP_THRESHOLD = 0.8`. -/
def MERGE_GAP_THRESHOLD : ℚ := 4/5

/-- `MIN_SEGMENT_DURATION = 1.2`. -/
def MIN_SEGMENT_DURATION : ℚ := 6/5

/-- `STOP_PADDING_SECONDS = 0.5`. -/
def STOP_PADDING_SECONDS : ℚ := 1/2

/-- `AUTO_ZOOM_AMOUNT = 1.8`. -/
def AUTO_ZOOM_AMOUNT : ℚ := 9/5

/-- `SCREEN_SPRING_STIFFNESS = 120.0` (zoom.rs value). -/
def SCREEN_SPRING_STIFFNESS : ℚ := 120

/-- `SCREEN_SPRING_DAMPING = 32.0` (zoom.rs value). -/
def SCREEN_SPRING_DAMPING : ℚ := 32

/-- `SCREEN_SPRING_MASS = 2.5` (zoom.rs value). -/
def SCREEN_SPRING_MASS : ℚ := 5/2

/-- `f64::EPSILON = 2⁻⁵²` exactly. -/
def F64_EPSILON : ℚ := 1/2^52

/-! ### Segment generation (`generate_segments_impl`), over `ℚ` -/

/-- Position resolution for one click (`generate_segments_impl`, click
position map): `moves.iter().rfind(|m| m.time <= click_time)` is the last
move at or before the click, hence `find?` on the reversed list; fallback is
the click's own coordinates. -/
def resolve_click_pos (moves : List MoveEvent) (click : ClickEvent) :
    ℚ × ℚ :=
  match moves.reverse.find? (fun m => decide (m.time ≤ click.time)) with
  | some m => (m.x, m.y)
  | none => (click.x, click.y)

/-- An entry of `click_positions`: `(click_time / 1000, x, y)`. -/
abbrev ClickPos : Type := ℚ × ℚ × ℚ

/-- The grouping predicate of `generate_segments_impl` for a new click `p`
against a group member `q`: `time_close && spatial_close`. The source
compares `sqrt(dx*dx + dy*dy) < CLICK_GROUP_SPATIAL_THRESHOLD`; with a
positive threshold this is equivalent to the squared comparison used here. -/
def close_to (p q : ClickPos) : Bool :=
  decide (|p.1 - q.1| < CLICK_GROUP_TIME_THRESHOLD_SECS) &&
  decide ((p.2.1 - q.2.1) * (p.2.1 - q.2.1) +
      (p.2.2 - q.2.2) * (p.2.2 - q.2.2)
      < CLICK_GROUP_SPATIAL_THRESHOLD * CLICK_GROUP_SPATIAL_THRESHOLD)

/-- One step of the grouping loop of `generate_segments_impl`: the new click
joins the first group containing a member close to it, else a fresh group is
appended at the end. The source stores indices into `click_positions`;
groups here store the `(time, x, y)` entries themselves, which is what every
index is used to look up. -/
def add_to_groups (p : ClickPos) : List (List ClickPos) → List (List ClickPos)
  | [] => [[p]]
  | g :: rest =>
    if g.any (fun q => close_to p q) then (g ++ [p]) :: rest
    else g :: add_to_groups p rest

/-- The grouping loop of `generate_segments_impl`. -/
def build_groups (ps : List ClickPos) : List (List ClickPos) :=
  ps.foldl (fun gs p => add_to_groups p gs) []

/-- Conversion of one group to a padded time interval
(`generate_segments_impl`, interval construction). The source skips empty
groups and folds `f64::min` from `+∞` (resp. `f64::max` from `-∞`) over the
group's times, which for a nonempty group is their minimum (resp. maximum),
computed here by folding from the head. Pushed only `if end > start`. -/
def group_interval (limit : ℚ) (g : List ClickPos) : Option (ℚ × ℚ) :=
  match g with
  | [] => none
  | p :: rest =>
    let group_start := rest.foldl (fun acc q => min acc q.1) p.1
    let group_end := rest.foldl (fun acc q => max acc q.1) p.1
    let start := max (group_start - CLICK_PRE_PADDING) 0
    let stop := min (group_end + CLICK_POST_PADDING) limit
    if start < stop then some (start, stop) else none

/-- One step of the merge loop of `generate_segments_impl`. The merged list
is kept in reverse so the Rust loop's `merged.last_mut()` is the head. -/
def merge_step (acc : List (ℚ × ℚ)) (i : ℚ × ℚ) : List (ℚ × ℚ) :=
  match acc with
  | [] => [i]
  | last :: rest =>
    if i.1 ≤ last.2 + MERGE_GAP_THRESHOLD then (last.1, max last.2 i.2) :: rest
    else i :: last :: rest

/-- The merge loop of `generate_segments_impl`. -/
def merge_intervals (l : List (ℚ × ℚ)) : List (ℚ × ℚ) :=
  (l.foldl merge_step []).reverse

/-- `activity_end_limit` as computed at the top of
`generate_segments_impl`. -/
def activity_end_limit (max_duration : ℚ) : ℚ :=
  if max_duration > STOP_PADDING_SECONDS then
    max_duration - STOP_PADDING_SECONDS
  else max_duration

/-- `generate_segments_impl` from `commands/zoom.rs`. The sort models Rust's
`sort_by` on `partial_cmp` of the start time (`insertionSort` sorts by the
same key; the proofs below use it only through its permutation and
sortedness properties, and in the concrete evaluations all start times are
distinct). -/
def generate_segments_impl (clicks : List ClickEvent) (moves : List MoveEvent)
    (max_duration : ℚ) : List (ZoomSegment ℚ) :=
  if max_duration ≤ 0 then [] else
  let limit := activity_end_limit max_duration
  if limit ≤ F64_EPSILON then [] else
  let down_clicks := clicks.filter (fun c => c.down && decide (c.time / 1000 < limit))
  if down_clicks.isEmpty then [] else
  let click_positions : List ClickPos :=
    down_clicks.map (fun c => (c.time / 1000, resolve_click_pos moves c))
  let groups := build_groups click_positions
  let intervals := groups.filterMap (group_interval limit)
  if intervals.isEmpty then [] else
  let sorted := List.insertionSort (fun a b : ℚ × ℚ => a.1 ≤ b.1) intervals
  let merged := merge_intervals sorted
  merged.filterMap (fun i =>
    if i.2 - i.1 < MIN_SEGMENT_DURATION then none
    else some { start := i.1, stop := i.2, amount := AUTO_ZOOM_AMOUNT })

/-- `generate_zoom_segments` from `commands/zoom.rs`. -/
def generate_zoom_segments (clicks : List ClickEvent) (moves : List MoveEvent)
    (duration_ms : ℚ) : List (ZoomSegment ℚ) :=
  generate_segments_impl clicks moves (duration_ms / 1000)

end Zoom

/-- `f64::clamp(self, min, max)` /`f32::clamp`:
`if self < min { min } else if self > max { max } else { self }`. -/
def rust_clamp {α : Type} [LinearOrder α] (x lo hi : α) : α :=
  if x < lo then lo else if hi < x then hi else x

namespace Zoom

/-! ### Zoom evaluation (`evaluate_zoom_at_time`), over `ℝ` -/

/-- `spring_ease` from `rendering/spring_physics.rs` (f32/f64 mixed in the
source; exact reals here). -/
noncomputable def spring_ease (t stiffness damping mass : ℝ) : ℝ :=
  if t ≤ 0 then 0
  else if t ≥ 1 then 1
  else
    let omega0 := Real.sqrt (stiffness / mass)
    let zeta := damping / (2 * Real.sqrt (stiffness * mass))
    if zeta < 1 then
      let omega_d := omega0 * Real.sqrt (1 - zeta * zeta)
      let decay := Real.exp (-zeta * omega0 * t)
      1 - decay * (Real.cos (omega_d * t)
        + (zeta * omega0 / omega_d) * Real.sin (omega_d * t))
    else
      let decay := Real.exp (-omega0 * t)
      1 - decay * (1 + omega0 * t)

/-- `spring_ease_out` from `rendering/spring_physics.rs`: same shape with
`omega0` scaled by `0.9` and `zeta` by `1.15`. -/
noncomputable def spring_ease_out (t stiffness damping mass : ℝ) : ℝ :=
  if t ≤ 0 then 0
  else if t ≥ 1 then 1
  else
    let omega0 := Real.sqrt (stiffness / mass) * (9/10)
    let zeta := damping / (2 * Real.sqrt (stiffness * mass)) * (115/100)
    if zeta < 1 then
      let omega_d := omega0 * Real.sqrt (1 - zeta * zeta)
      let decay := Real.exp (-zeta * omega0 * t)
      1 - decay * (Real.cos (omega_d * t)
        + (zeta * omega0 / omega_d) * Real.sin (omega_d * t))
    else
      let decay := Real.exp (-omega0 * t)
      1 - decay * (1 + omega0 * t)

/-- The first loop of `evaluate_segments`: find the first segment with
`time_secs > seg.start && time_secs <= seg.end` together with the segment
just before it in the list (the accumulator carries the previously visited
segment, which is what `segments[i - 1]` is when the loop hits index `i`). -/
noncomputable def find_current_seg (time_secs : ℝ) :
    Option (ZoomSegment ℝ) → List (ZoomSegment ℝ) →
    Option (ZoomSegment ℝ × Option (ZoomSegment ℝ))
  | _, [] => none
  | prev, seg :: rest =>
    if time_secs > seg.start ∧ time_secs ≤ seg.stop then some (seg, prev)
    else find_current_seg time_secs (some seg) rest

/-- `evaluate_segments` from `commands/zoom.rs`: returns
`(zoom_t, focus_x, focus_y)`. -/
noncomputable def evaluate_segments (segments : List (ZoomSegment ℝ))
    (time_secs cursor_x cursor_y : ℝ) : ℝ × ℝ × ℝ :=
  let found := find_current_seg time_secs none segments
  -- `(prev_seg, current_seg)` after the two search loops: if no current
  -- segment was found, `prev_seg` is the last segment (in reverse order)
  -- with `seg.end <= time_secs`.
  let pair : Option (ZoomSegment ℝ) × Option (ZoomSegment ℝ) :=
    match found with
    | some (seg, prev) => (prev, some seg)
    | none =>
      (segments.reverse.find? (fun seg => decide (seg.stop ≤ time_secs)), none)
  match pair with
  | (some prev, none) =>
    -- Zooming out from previous segment
    let elapsed := time_secs - prev.stop
    if elapsed ≥ (ZOOM_DURATION : ℝ) then (0, 1/2, 1/2)
    else
      let raw_t := elapsed / (ZOOM_DURATION : ℝ)
      let ease_t := spring_ease_out raw_t (SCREEN_SPRING_STIFFNESS : ℝ)
        (SCREEN_SPRING_DAMPING : ℝ) (SCREEN_SPRING_MASS : ℝ)
      (1 - ease_t, cursor_x, cursor_y)
  | (none, some seg) =>
    -- Zooming into current segment (no previous)
    let elapsed := time_secs - seg.start
    let raw_t := min (elapsed / (ZOOM_DURATION : ℝ)) 1
    let ease_t := spring_ease raw_t (SCREEN_SPRING_STIFFNESS : ℝ)
      (SCREEN_SPRING_DAMPING : ℝ) (SCREEN_SPRING_MASS : ℝ)
    (ease_t, cursor_x, cursor_y)
  | (some prev, some seg) =>
    -- Transitioning between segments
    let elapsed := time_secs - seg.start
    let raw_t := min (elapsed / (ZOOM_DURATION : ℝ)) 1
    let ease_t := spring_ease raw_t (SCREEN_SPRING_STIFFNESS : ℝ)
      (SCREEN_SPRING_DAMPING : ℝ) (SCREEN_SPRING_MASS : ℝ)
    if seg.start = prev.stop then (1, cursor_x, cursor_y)
    else if seg.start - prev.stop < (ZOOM_DURATION : ℝ) then
      let gap := seg.start - prev.stop
      let out_t := spring_ease_out (gap / (ZOOM_DURATION : ℝ))
        (SCREEN_SPRING_STIFFNESS : ℝ) (SCREEN_SPRING_DAMPING : ℝ)
        (SCREEN_SPRING_MASS : ℝ)
      let min_zoom := 1 - out_t
      (min_zoom * (1 - ease_t) + ease_t, cursor_x, cursor_y)
    else (ease_t, cursor_x, cursor_y)
  | (none, none) => (0, 1/2, 1/2)

/-- `evaluate_zoom_at_time` from `commands/zoom.rs`. -/
noncomputable def evaluate_zoom_at_time (segments : List (ZoomSegment ℝ))
    (time_ms cursor_x cursor_y : ℝ) : ZoomState :=
  if segments.isEmpty then { x := 1/2, y := 1/2, scale := 1 } else
  let time_secs := time_ms / 1000
  let r := evaluate_segments segments time_secs cursor_x cursor_y
  if r.1 ≤ 1/1000 then { x := 1/2, y := 1/2, scale := 1 } else
  let amount := 1 + ((AUTO_ZOOM_AMOUNT : ℝ) - 1) * r.1
  let half := 1/2 / amount
  { x := rust_clamp r.2.1 half (1 - half),
    y := rust_clamp r.2.2 half (1 - half),
    scale := amount }

end Zoom

/-! ## zoom_interpolation.rs — camera bounds -/

namespace ZoomInterp

/-- `ZoomBounds` from `rendering/zoom_interpolation.rs`. -/
structure ZoomBounds where
  top_left : ℚ × ℚ
  bottom_right : ℚ × ℚ
deriving DecidableEq

/-- `ZoomBounds::identity()`. -/
def ZoomBounds.identity : ZoomBounds :=
  { top_left := (0, 0), bottom_right := (1, 1) }

/-- The cursor-visibility adjustment inside `compute_zoom_bounds`
(lines 389–409): shifts the center so the actual cursor stays within an
inset margin of the viewport. -/
def ensure_cursor_visible (cx cy half_size : ℚ) (cursor : ℚ × ℚ) : ℚ × ℚ :=
  let margin := half_size * (15/100)
  let left := cx - half_size + margin
  let right := cx + half_size - margin
  let top := cy - half_size + margin
  let bottom := cy + half_size - margin
  let cx' := if cursor.1 < left then cx - (left - cursor.1)
    else if cursor.1 > right then cx + (cursor.1 - right)
    else cx
  let cy' := if cursor.2 < top then cy - (top - cursor.2)
    else if cursor.2 > bottom then cy + (cursor.2 - bottom)
    else cy
  (cx', cy')

/-- The edge-snapping adjustment inside `compute_zoom_bounds`
(lines 412–427). The two `if`s per axis are sequential in the source: the
second test reads the already-updated coordinate. -/
def edge_snap_center (cx cy half_size snap : ℚ) : ℚ × ℚ :=
  let cx1 := if cx - half_size < snap then half_size + snap else cx
  let cx2 := if cx1 + half_size > 1 - snap then 1 - half_size - snap else cx1
  let cy1 := if cy - half_size < snap then half_size + snap else cy
  let cy2 := if cy1 + half_size > 1 - snap then 1 - half_size - snap else cy1
  (cx2, cy2)

/-- `compute_zoom_bounds` from `rendering/zoom_interpolation.rs`. -/
def compute_zoom_bounds (focus : ℚ × ℚ) (amount edge_snap : ℚ)
    (actual_cursor : Option (ℚ × ℚ)) : ZoomBounds :=
  if amount ≤ 1001/1000 then ZoomBounds.identity else
  let half_size := 1/2 / amount
  let c0 : ℚ × ℚ :=
    match actual_cursor with
    | some cursor => ensure_cursor_visible focus.1 focus.2 half_size cursor
    | none => (focus.1, focus.2)
  let c1 : ℚ × ℚ :=
    if edge_snap > 0 then edge_snap_center c0.1 c0.2 half_size (edge_snap * half_size)
    else c0
  let cx := rust_clamp c1.1 half_size (1 - half_size)
  let cy := rust_clamp c1.2 half_size (1 - half_size)
  { top_left := (cx - half_size, cy - half_size),
    bottom_right := (cx + half_size, cy + half_size) }

end ZoomInterp

/-! ## cursor_interpolation.rs — shake filter -/

namespace Cursor

/-- `CursorMoveEvent` from `rendering/cursor_interpolation.rs`. -/
structure CursorMoveEvent where
  time_ms : ℚ
  x : ℚ
  y : ℚ
  cursor_id : String
deriving DecidableEq

/-- `SHAKE_THRESHOLD_UV = 0.015`. -/
def SHAKE_THRESHOLD_UV : ℚ := 15/1000

/-- `SHAKE_DETECTION_WINDOW_MS = 100.0`. -/
def SHAKE_DETECTION_WINDOW_MS : ℚ := 100

/-- Decidable rendering over `ℚ` of `Real.sqrt a + Real.sqrt b < c` for
`0 ≤ a`, `0 ≤ b`: squaring twice gives
`0 < c ∧ a + b < c² ∧ 4ab < (c² - a - b)²` (proved equivalent in
`sqrt_sum_lt_iff` below). -/
def sqrt_sum_lt (a b c : ℚ) : Bool :=
  decide (0 < c) && decide (a + b < c^2) && decide (4*a*b < (c^2 - a - b)^2)

/-- The drop condition of the `filter_cursor_shake` loop for the triple
`(prev, curr, next) = (moves[i-1], moves[i], moves[i+1])`: the sample is
dropped iff the time window is within `SHAKE_DETECTION_WINDOW_MS` and the
direction reverses (`dot < 0`) and the mean of the two step lengths,
`(sqrt(dx1²+dy1²) + sqrt(dx2²+dy2²)) * 0.5`, is below `SHAKE_THRESHOLD_UV`
— the latter rendered as `sqrt d1 + sqrt d2 < 2 * SHAKE_THRESHOLD_UV` via
`sqrt_sum_lt`. -/
def shake_drop (prev curr next : CursorMoveEvent) : Bool :=
  let time_window := next.time_ms - prev.time_ms
  if time_window > SHAKE_DETECTION_WINDOW_MS then false
  else
    let dx1 := curr.x - prev.x
    let dy1 := curr.y - prev.y
    let dx2 := next.x - curr.x
    let dy2 := next.y - curr.y
    let dot := dx1 * dx2 + dy1 * dy2
    decide (dot < 0) &&
      sqrt_sum_lt (dx1 * dx1 + dy1 * dy1) (dx2 * dx2 + dy2 * dy2)
        (2 * SHAKE_THRESHOLD_UV)

/-- The interior loop of `filter_cursor_shake` (`i` from `1` to
`moves.len() - 2`): each interior sample is kept or dropped based on its
*original* neighbours (the source indexes `moves[i-1]`, not the last kept
sample), so the loop is a filter over consecutive triples. -/
def shake_interior : List CursorMoveEvent → List CursorMoveEvent
  | p :: c :: n :: rest =>
    if shake_drop p c n then shake_interior (c :: n :: rest)
    else c :: shake_interior (c :: n :: rest)
  | _ => []

/-- `filter_cursor_shake` from `rendering/cursor_interpolation.rs`: for
fewer than 3 samples, the input is returned unchanged; otherwise the first
sample, the filtered interior, and the last sample. -/
def filter_cursor_shake (moves : List CursorMoveEvent) :
    List CursorMoveEvent :=
  if moves.length < 3 then moves
  else moves.take 1 ++ shake_interior moves ++ moves.drop (moves.length - 1)

end Cursor

/-! ## compositor.rs — padded readback stripping -/

namespace Compositor

/-- `wgpu::COPY_BYTES_PER_ROW_ALIGNMENT = 256`. -/
def COPY_BYTES_PER_ROW_ALIGNMENT : ℕ := 256

/-- `GpuCompositor::padded_bytes_per_row`: `(width * 4 + align - 1) / align
* align` in `u32` arithmetic, modelled on `ℕ` with the additions reduced
`% 2³²` (the final `/ align * align` cannot overflow once the sum is below
`2³²`). -/
def padded_bytes_per_row (width : ℕ) : ℕ :=
  ((width * 4 + COPY_BYTES_PER_ROW_ALIGNMENT - 1) % 2^32)
    / COPY_BYTES_PER_ROW_ALIGNMENT * COPY_BYTES_PER_ROW_ALIGNMENT

/-- The readback tail of `GpuCompositor::composite_frame` (lines 780–799):
the GPU render and the texture-to-buffer copy are external; a successful
readback maps a buffer holding `out_h` rows of `padded_bytes_per_row out_w`
bytes each. If padded and unpadded widths agree the buffer is returned
whole, else each row's first `out_w * 4` bytes are copied out. The byte
type is a parameter; only lengths matter to the claims. -/
def composite_frame_pixels {β : Type} (mapped : List β) (out_w out_h : ℕ) :
    List β :=
  let unpadded_bpr := out_w * 4
  let padded_bpr := padded_bytes_per_row out_w
  if unpadded_bpr = padded_bpr then mapped
  else (List.range out_h).flatMap
    (fun row => (mapped.drop (row * padded_bpr)).take unpadded_bpr)

end Compositor

/-! ## export.rs — frame writing during encode -/

namespace Export

/-- The per-frame body of the `export_mp4` encoding loop
(lines 326–336): a frame of exactly the expected byte length is written
as-is; a *non-empty* frame of any other length is written as its first
`min len expected` bytes followed by zeros up to `expected` (the source
allocates `vec![0u8; expected_size]` and overwrites its prefix); an empty
frame is not written at all. `none` = nothing written; no length mismatch
produces an error. -/
def write_frame_bytes (frame : List ℕ) (expected : ℕ) : Option (List ℕ) :=
  if frame.length = expected then some frame
  else if frame.isEmpty = false then
    let copy_len := min frame.length expected
    some (frame.take copy_len ++ List.replicate (expected - copy_len) 0)
  else none

end Export

/-! ## General helper lemmas -/

/-- `rust_clamp` lands in `[lo, hi]` whenever `lo ≤ hi`. -/
theorem rust_clamp_mem {α : Type} [LinearOrder α] (x lo hi : α) (h : lo ≤ hi) :
    lo ≤ rust_clamp x lo hi ∧ rust_clamp x lo hi ≤ hi := by
  unfold rust_clamp
  split
  · exact ⟨le_refl lo, h⟩
  · split
    · exact ⟨h, le_refl hi⟩
    · next h1 h2 => exact ⟨le_of_not_lt h1, le_of_not_lt h2⟩

/-- The 1D solver is exact on the zero state: from zero displacement and
zero velocity every damping branch returns `(0, 0)`. -/
theorem solve_spring_1d_zero (t omega0 zeta : ℝ) :
    Spring.solve_spring_1d 0 0 t omega0 zeta = (0, 0) := by
  unfold Spring.solve_spring_1d
  split
  · simp
  · split
    · dsimp only
      split <;> simp
    · simp

/-! ## Claim C10: `run` mutates only position and velocity -/

/-- C10: for every `SpringSimulation` state and every `dt_ms`, `run(dt_ms)`
leaves the `target` and `config` fields unchanged — in the early-return
branch, the rest-snapping branch, and the ordinary update branch alike. -/
theorem run_preserves_target_and_config (s : Spring.SpringSimulation)
    (dt_ms : ℝ) :
    (Spring.run s dt_ms).1.target = s.target ∧
    (Spring.run s dt_ms).1.config = s.config := by
  unfold Spring.run
  split
  · exact ⟨rfl, rfl⟩
  · dsimp only
    split
    · exact ⟨rfl, rfl⟩
    · exact ⟨rfl, rfl⟩

/-! ## Claim C1: `run` rejects `dt ≤ 0` and applies rest snapping -/

/-- C1: `run(dt_ms)` with `dt_ms ≤ 0` is a no-op returning the current
position; and for `dt_ms > 0`, whenever the updated displacement magnitude
and velocity magnitude fall below `REST_DISPLACEMENT_THRESHOLD = 1e-5` and
`REST_VELOCITY_THRESHOLD = 1e-4`, the new position is exactly the target
and the new velocity is exactly zero (and the returned position is the
target). -/
theorem run_noop_and_rest_snap (s : Spring.SpringSimulation) (dt_ms : ℝ) :
    (dt_ms ≤ 0 → Spring.run s dt_ms = (s, s.position)) ∧
    (0 < dt_ms →
      Real.sqrt ((Spring.run_solved s dt_ms).1.1 * (Spring.run_solved s dt_ms).1.1
          + (Spring.run_solved s dt_ms).2.1 * (Spring.run_solved s dt_ms).2.1)
        < Spring.REST_DISPLACEMENT_THRESHOLD →
      Real.sqrt ((Spring.run_solved s dt_ms).1.2 * (Spring.run_solved s dt_ms).1.2
          + (Spring.run_solved s dt_ms).2.2 * (Spring.run_solved s dt_ms).2.2)
        < Spring.REST_VELOCITY_THRESHOLD →
      (Spring.run s dt_ms).1.position = s.target ∧
      (Spring.run s dt_ms).1.velocity = (0, 0) ∧
      (Spring.run s dt_ms).2 = s.target) := by
  constructor
  · intro h
    unfold Spring.run
    rw [if_pos h]
  · intro h h1 h2
    unfold Spring.run
    rw [if_neg (not_le.mpr h)]
    dsimp only
    rw [if_pos ⟨h1, h2⟩]
    exact ⟨rfl, rfl, rfl⟩

/-- Witness for C1 at the concrete state sitting on its target with zero
velocity and `dt_ms = 16`. -/
theorem run_noop_and_rest_snap_witness :
    (0:ℝ) < 16 ∧
    Real.sqrt ((Spring.run_solved ⟨Spring.SpringConfig.cursor_default, (0, 0), (0, 0), (0, 0)⟩ 16).1.1 *
          (Spring.run_solved ⟨Spring.SpringConfig.cursor_default, (0, 0), (0, 0), (0, 0)⟩ 16).1.1
        + (Spring.run_solved ⟨Spring.SpringConfig.cursor_default, (0, 0), (0, 0), (0, 0)⟩ 16).2.1 *
          (Spring.run_solved ⟨Spring.SpringConfig.cursor_default, (0, 0), (0, 0), (0, 0)⟩ 16).2.1)
      < Spring.REST_DISPLACEMENT_THRESHOLD ∧
    (Spring.run ⟨Spring.SpringConfig.cursor_default, (0, 0), (0, 0), (0, 0)⟩ 16).1.position = (0, 0) := by
  have hsolved : Spring.run_solved
      ⟨Spring.SpringConfig.cursor_default, (0, 0), (0, 0), (0, 0)⟩ 16 = ((0, 0), (0, 0)) := by
    unfold Spring.run_solved
    simp [solve_spring_1d_zero]
  have h1 : Real.sqrt ((0:ℝ) * 0 + 0 * 0) < Spring.REST_DISPLACEMENT_THRESHOLD := by
    norm_num [Spring.REST_DISPLACEMENT_THRESHOLD, Real.sqrt_zero]
  have h2 : Real.sqrt ((0:ℝ) * 0 + 0 * 0) < Spring.REST_VELOCITY_THRESHOLD := by
    norm_num [Spring.REST_VELOCITY_THRESHOLD, Real.sqrt_zero]
  refine ⟨by norm_num, by rw [hsolved]; exact h1, ?_⟩
  have := (run_noop_and_rest_snap
    ⟨Spring.SpringConfig.cursor_default, (0, 0), (0, 0), (0, 0)⟩ 16).2
    (by norm_num) (by rw [hsolved]; exact h1) (by rw [hsolved]; exact h2)
  exact this.1

/-! ## Claim C7: `is_at_rest` when position equals target -/

/-- C7 counterexample: a state whose position equals its target but whose
velocity is `(1, 0)` is *not* at rest — `is_at_rest` also requires the
velocity magnitude below `REST_VELOCITY_THRESHOLD`, so the claim's
"regardless of the rest of the state" fails. -/
theorem is_at_rest_counterexample :
    (Spring.SpringSimulation.position
        ⟨Spring.SpringConfig.cursor_default, (0, 0), (1, 0), (0, 0)⟩ =
      Spring.SpringSimulation.target
        ⟨Spring.SpringConfig.cursor_default, (0, 0), (1, 0), (0, 0)⟩) ∧
    ¬ Spring.is_at_rest
        ⟨Spring.SpringConfig.cursor_default, (0, 0), (1, 0), (0, 0)⟩ := by
  refine ⟨rfl, ?_⟩
  unfold Spring.is_at_rest
  dsimp only
  rintro ⟨-, hv⟩
  rw [show ((1:ℝ) * 1 + 0 * 0) = 1 by norm_num, Real.sqrt_one] at hv
  norm_num [Spring.REST_VELOCITY_THRESHOLD] at hv

/-- C7 as amended: if the position equals the target *and* the velocity
magnitude is below `REST_VELOCITY_THRESHOLD`, then `is_at_rest` holds
(the displacement test is then satisfied automatically). -/
theorem is_at_rest_of_position_eq_target (s : Spring.SpringSimulation)
    (h : s.position = s.target)
    (hv : Real.sqrt (s.velocity.1 * s.velocity.1 + s.velocity.2 * s.velocity.2)
      < Spring.REST_VELOCITY_THRESHOLD) :
    Spring.is_at_rest s := by
  unfold Spring.is_at_rest
  dsimp only
  refine ⟨?_, hv⟩
  rw [h]
  rw [show (s.target.1 - s.target.1) * (s.target.1 - s.target.1)
      + (s.target.2 - s.target.2) * (s.target.2 - s.target.2) = 0 by ring]
  norm_num [Spring.REST_DISPLACEMENT_THRESHOLD, Real.sqrt_zero]

/-- Witness for the amended C7 at a concrete resting state. -/
theorem is_at_rest_of_position_eq_target_witness :
    (Spring.SpringSimulation.position
        ⟨Spring.SpringConfig.cursor_default, (1/2, 1/2), (0, 0), (1/2, 1/2)⟩ =
      Spring.SpringSimulation.target
        ⟨Spring.SpringConfig.cursor_default, (1/2, 1/2), (0, 0), (1/2, 1/2)⟩) ∧
    Spring.is_at_rest
      ⟨Spring.SpringConfig.cursor_default, (1/2, 1/2), (0, 0), (1/2, 1/2)⟩ := by
  refine ⟨rfl, ?_⟩
  refine is_at_rest_of_position_eq_target _ rfl ?_
  rw [show ((0:ℝ) * 0 + 0 * 0) = 0 by norm_num]
  norm_num [Spring.REST_VELOCITY_THRESHOLD, Real.sqrt_zero]

/-! ## Claim C3: `compute_zoom_bounds` never exits the unit square -/

/-- After the final clamp the viewport fits in `[0,1]²`, for any center. -/
theorem clamped_center_in_square (cx cy half : ℚ)
    (hle : half ≤ 1 - half) :
    0 ≤ rust_clamp cx half (1 - half) - half ∧
    0 ≤ rust_clamp cy half (1 - half) - half ∧
    rust_clamp cx half (1 - half) + half ≤ 1 ∧
    rust_clamp cy half (1 - half) + half ≤ 1 := by
  obtain ⟨hx1, hx2⟩ := rust_clamp_mem cx half (1 - half) hle
  obtain ⟨hy1, hy2⟩ := rust_clamp_mem cy half (1 - half) hle
  constructor
  · linarith
  constructor
  · linarith
  constructor
  · linarith
  · linarith

/-- C3: for every focus, amount, `edge_snap_ratio ∈ [0,1]` and optional
actual-cursor position, the bounds returned by `compute_zoom_bounds` stay
inside the unit square: `0 ≤ top_left` and `bottom_right ≤ 1` on both
axes. -/
theorem compute_zoom_bounds_in_unit_square (focus : ℚ × ℚ)
    (amount edge_snap : ℚ) (cursor : Option (ℚ × ℚ))
    (hs0 : 0 ≤ edge_snap) (hs1 : edge_snap ≤ 1) :
    0 ≤ (ZoomInterp.compute_zoom_bounds focus amount edge_snap cursor).top_left.1 ∧
    0 ≤ (ZoomInterp.compute_zoom_bounds focus amount edge_snap cursor).top_left.2 ∧
    (ZoomInterp.compute_zoom_bounds focus amount edge_snap cursor).bottom_right.1 ≤ 1 ∧
    (ZoomInterp.compute_zoom_bounds focus amount edge_snap cursor).bottom_right.2 ≤ 1 := by
  unfold ZoomInterp.compute_zoom_bounds
  split
  · norm_num [ZoomInterp.ZoomBounds.identity]
  · next ham =>
    push_neg at ham
    have hamount : (0:ℚ) < amount := lt_trans (by norm_num) ham
    have hlt : (1:ℚ)/2 / amount < 1/2 := by
      rw [div_lt_iff₀ hamount]
      nlinarith
    have hle : (1:ℚ)/2 / amount ≤ 1 - 1/2 / amount := by linarith
    dsimp only
    exact clamped_center_in_square _ _ _ hle

/-- Witness for C3 at a concrete query with a cursor near the corner and a
nonzero edge-snap ratio. -/
theorem compute_zoom_bounds_in_unit_square_witness :
    (0:ℚ) ≤ 1/10 ∧ (1:ℚ)/10 ≤ 1 ∧
    (0 ≤ (ZoomInterp.compute_zoom_bounds (9/10, 1/10) 2 (1/10)
        (some (95/100, 5/100))).top_left.1 ∧
     0 ≤ (ZoomInterp.compute_zoom_bounds (9/10, 1/10) 2 (1/10)
        (some (95/100, 5/100))).top_left.2 ∧
     (ZoomInterp.compute_zoom_bounds (9/10, 1/10) 2 (1/10)
        (some (95/100, 5/100))).bottom_right.1 ≤ 1 ∧
     (ZoomInterp.compute_zoom_bounds (9/10, 1/10) 2 (1/10)
        (some (95/100, 5/100))).bottom_right.2 ≤ 1) :=
  ⟨by norm_num, by norm_num,
   compute_zoom_bounds_in_unit_square (9/10, 1/10) 2 (1/10)
     (some (95/100, 5/100)) (by norm_num) (by norm_num)⟩

/-! ## Claim C9: short frames are zero-padded during export -/

/-- C9 counterexample: an *empty* frame is shorter than the expected size
but is skipped, not zero-padded and written — the claim fails for it as
stated. -/
theorem write_frame_bytes_counterexample :
    ¬ ((List.length ([] : List ℕ) < 4) →
      Export.write_frame_bytes [] 4 = some ([] ++ List.replicate 4 0)) := by
  decide

/-- C9 as amended: every *non-empty* frame shorter than the expected size is
zero-padded — its bytes followed by zeros up to the expected size — and
written to the encoder (empty frames are skipped without error). -/
theorem write_frame_bytes_pads_short_frames (frame : List ℕ) (expected : ℕ)
    (hne : frame ≠ []) (hlt : frame.length < expected) :
    Export.write_frame_bytes frame expected =
      some (frame ++ List.replicate (expected - frame.length) 0) := by
  unfold Export.write_frame_bytes
  rw [if_neg (by omega : ¬ frame.length = expected)]
  rw [if_pos (by simpa [List.isEmpty_iff] using hne)]
  rw [min_eq_left hlt.le]
  dsimp only
  rw [List.take_length]

/-- Witness for the amended C9 on a four-byte frame with an eight-byte
expected size. -/
theorem write_frame_bytes_pads_short_frames_witness :
    ([1, 2, 3, 4] : List ℕ) ≠ [] ∧ ([1, 2, 3, 4] : List ℕ).length < 8 ∧
    Export.write_frame_bytes [1, 2, 3, 4] 8 =
      some ([1, 2, 3, 4] ++ List.replicate (8 - ([1, 2, 3, 4] : List ℕ).length) 0) :=
  ⟨by decide, by decide,
   write_frame_bytes_pads_short_frames [1, 2, 3, 4] 8 (by decide) (by decide)⟩

/-! ## Claim C4: `composite_frame` returns `out_w * out_h * 4` bytes -/

/-- The unpadded row width never exceeds the 256-aligned padded width. -/
theorem unpadded_le_padded (w : ℕ) (h : w * 4 + 255 < 2^32) :
    w * 4 ≤ Compositor.padded_bytes_per_row w := by
  unfold Compositor.padded_bytes_per_row Compositor.COPY_BYTES_PER_ROW_ALIGNMENT
  rw [show w * 4 + 256 - 1 = w * 4 + 255 by omega, Nat.mod_eq_of_lt h]
  have hd := Nat.div_add_mod (w * 4 + 255) 256
  have hm : (w * 4 + 255) % 256 < 256 := Nat.mod_lt _ (by norm_num)
  omega

/-- Row extraction: stripping `n` rows of `p` padded bytes down to their
first `u` bytes yields `n * u` elements whenever the buffer is long
enough. -/
theorem strip_rows_length {β : Type} (mapped : List β) (u p : ℕ)
    (hup : u ≤ p) :
    ∀ n, p * n ≤ mapped.length →
      ((List.range n).flatMap
        (fun row => (mapped.drop (row * p)).take u)).length = n * u := by
  intro n
  induction n with
  | zero => intro _; simp
  | succ m ih =>
    intro hlen
    rw [List.range_succ, List.flatMap_append]
    have hpm : p * (m + 1) = m * p + p := by ring
    have hm : p * m ≤ mapped.length := by
      have : p * m = m * p := by ring
      omega
    rw [List.length_append, ih hm]
    simp only [List.flatMap_cons, List.flatMap_nil, List.append_nil,
      List.length_take, List.length_drop]
    have : u ≤ mapped.length - m * p := by omega
    rw [min_eq_left this]
    ring

/-- C4: for every successful `composite_frame` call — modelled as: the
mapped readback buffer holds `out_h` rows of `padded_bytes_per_row out_w`
bytes — the returned byte vector has length exactly
`out_w * out_h * 4`, for every source frame width and height (which do not
enter the readback at all). -/
theorem composite_frame_pixels_length {β : Type} (mapped : List β)
    (out_w out_h src_w src_h : ℕ) (hw : out_w * 4 + 255 < 2^32)
    (hlen : mapped.length = Compositor.padded_bytes_per_row out_w * out_h) :
    (Compositor.composite_frame_pixels mapped out_w out_h).length
      = out_w * out_h * 4 := by
  have hup := unpadded_le_padded out_w hw
  unfold Compositor.composite_frame_pixels
  dsimp only
  split
  · next heq =>
    rw [hlen, ← heq]
    ring
  · rw [strip_rows_length mapped (out_w * 4)
      (Compositor.padded_bytes_per_row out_w) hup out_h (le_of_eq hlen.symm)]
    ring

/-- Witness for C4: a 1×2 output frame. With `out_w = 1` the padded row is
256 bytes, so the buffer holds 512 entries and stripping returns 8. -/
theorem composite_frame_pixels_length_witness :
    (1 * 4 + 255 < 2^32) ∧
    (List.replicate 512 (0 : ℕ)).length = Compositor.padded_bytes_per_row 1 * 2 ∧
    (Compositor.composite_frame_pixels (List.replicate 512 (0 : ℕ)) 1 2).length
      = 1 * 2 * 4 := by
  have hpad : Compositor.padded_bytes_per_row 1 = 256 := by
    norm_num [Compositor.padded_bytes_per_row, Compositor.COPY_BYTES_PER_ROW_ALIGNMENT]
  have hlen : (List.replicate 512 (0 : ℕ)).length
      = Compositor.padded_bytes_per_row 1 * 2 := by
    rw [hpad, List.length_replicate]
  exact ⟨by norm_num, hlen,
    composite_frame_pixels_length (List.replicate 512 (0 : ℕ)) 1 2 640 480
      (by norm_num) hlen⟩

/-! ## Claim C8: the shake filter shrinks and keeps the endpoints -/

/-- Dropping all but the last element of a nonempty list leaves exactly its
last element. -/
theorem drop_length_sub_one_eq :
    ∀ (l : List Cursor.CursorMoveEvent) (h : l ≠ []),
      l.drop (l.length - 1) = [l.getLast h]
  | [a], _ => rfl
  | a :: b :: t, _ => by
    have ih := drop_length_sub_one_eq (b :: t) (by simp)
    have h1 : (a :: b :: t).length - 1 = (b :: t).length := by simp
    rw [h1, show (b :: t).length = (b :: t).length - 1 + 1 by simp,
      List.drop_succ_cons, ih]
    simp [List.getLast_cons]

/-- The interior pass removes at least the two endpoint slots: its output
has at most `l.length - 2` elements. -/
theorem shake_interior_length :
    ∀ l : List Cursor.CursorMoveEvent,
      (Cursor.shake_interior l).length ≤ l.length - 2
  | [] => by simp [Cursor.shake_interior]
  | [a] => by simp [Cursor.shake_interior]
  | [a, b] => by simp [Cursor.shake_interior]
  | p :: c :: n :: rest => by
    have ih := shake_interior_length (c :: n :: rest)
    unfold Cursor.shake_interior
    split
    · simp only [List.length_cons] at *
      omega
    · simp only [List.length_cons] at *
      omega

/-- C8: `filter_cursor_shake` never lengthens the list, and the first and
last input samples are the first and last output elements (stated via
`head?`/`getLast?`, which also covers the empty input). -/
theorem filter_cursor_shake_shape (moves : List Cursor.CursorMoveEvent) :
    (Cursor.filter_cursor_shake moves).length ≤ moves.length ∧
    (Cursor.filter_cursor_shake moves).head? = moves.head? ∧
    (Cursor.filter_cursor_shake moves).getLast? = moves.getLast? := by
  unfold Cursor.filter_cursor_shake
  split
  · exact ⟨le_refl _, rfl, rfl⟩
  · next hlong =>
    push_neg at hlong
    have hne : moves ≠ [] := by
      intro h
      rw [h] at hlong
      simp at hlong
    obtain ⟨m, rest, rfl⟩ : ∃ m rest, moves = m :: rest := by
      cases moves with
      | nil => exact absurd rfl hne
      | cons m rest => exact ⟨m, rest, rfl⟩
    have htake : (m :: rest).take 1 = [m] := by simp
    have hdrop := drop_length_sub_one_eq (m :: rest) hne
    refine ⟨?_, ?_, ?_⟩
    · have hint := shake_interior_length (m :: rest)
      rw [htake, hdrop]
      simp only [List.length_append, List.length_cons, List.length_nil,
        List.length_singleton] at *
      omega
    · rw [htake]
      simp
    · rw [hdrop, List.getLast?_append_of_ne_nil _ (by simp)]
      simp [List.getLast?_eq_getLast]

/-- Faithfulness of the squared rendering used by the shake filter:
for `0 ≤ a`, `0 ≤ b`, `sqrt_sum_lt a b c` decides exactly
`Real.sqrt a + Real.sqrt b < c`. -/
theorem sqrt_sum_lt_iff (a b c : ℚ) (ha : 0 ≤ a) (hb : 0 ≤ b) :
    Cursor.sqrt_sum_lt a b c = true ↔
      Real.sqrt (a:ℝ) + Real.sqrt (b:ℝ) < (c:ℝ) := by
  have ha' : (0:ℝ) ≤ (a:ℝ) := by exact_mod_cast ha
  have hb' : (0:ℝ) ≤ (b:ℝ) := by exact_mod_cast hb
  have hA0 : 0 ≤ Real.sqrt (a:ℝ) := Real.sqrt_nonneg _
  have hB0 : 0 ≤ Real.sqrt (b:ℝ) := Real.sqrt_nonneg _
  have hA2 : Real.sqrt (a:ℝ) * Real.sqrt (a:ℝ) = (a:ℝ) := Real.mul_self_sqrt ha'
  have hB2 : Real.sqrt (b:ℝ) * Real.sqrt (b:ℝ) = (b:ℝ) := Real.mul_self_sqrt hb'
  unfold Cursor.sqrt_sum_lt
  simp only [Bool.and_eq_true, decide_eq_true_eq]
  constructor
  · rintro ⟨⟨h0, h1⟩, h2⟩
    have h0' : (0:ℝ) < (c:ℝ) := by exact_mod_cast h0
    have h1' : (a:ℝ) + (b:ℝ) < (c:ℝ)^2 := by exact_mod_cast h1
    have h2' : 4*(a:ℝ)*(b:ℝ) < ((c:ℝ)^2 - (a:ℝ) - (b:ℝ))^2 := by exact_mod_cast h2
    have hab : 2*(Real.sqrt (a:ℝ) * Real.sqrt (b:ℝ)) < (c:ℝ)^2 - (a:ℝ) - (b:ℝ) := by
      nlinarith [mul_nonneg hA0 hB0]
    nlinarith [mul_nonneg hA0 hB0]
  · intro h
    have h0' : (0:ℝ) < (c:ℝ) := lt_of_le_of_lt (by positivity) h
    have hsq : (Real.sqrt (a:ℝ) + Real.sqrt (b:ℝ)) * (Real.sqrt (a:ℝ) + Real.sqrt (b:ℝ))
        < (c:ℝ) * (c:ℝ) := mul_self_lt_mul_self (by positivity) h
    have hab : 0 ≤ Real.sqrt (a:ℝ) * Real.sqrt (b:ℝ) := mul_nonneg hA0 hB0
    refine ⟨⟨by exact_mod_cast h0', ?_⟩, ?_⟩
    · have : (a:ℝ) + (b:ℝ) < (c:ℝ)^2 := by nlinarith
      exact_mod_cast this
    · have h3 : 2*(Real.sqrt (a:ℝ) * Real.sqrt (b:ℝ)) < (c:ℝ)^2 - (a:ℝ) - (b:ℝ) := by
        nlinarith
      have : 4*(a:ℝ)*(b:ℝ) < ((c:ℝ)^2 - (a:ℝ) - (b:ℝ))^2 := by nlinarith
      exact_mod_cast this

/-! ## Claim C5: never start zoomed -/

/-- The current-segment search loop returns `none` (for any accumulator)
when no segment satisfies `t > start ∧ t ≤ end`. -/
theorem find_current_seg_eq_none (t : ℝ) :
    ∀ (segs : List (Zoom.ZoomSegment ℝ)) (acc : Option (Zoom.ZoomSegment ℝ)),
      (∀ s ∈ segs, ¬(t > s.start ∧ t ≤ s.stop)) →
      Zoom.find_current_seg t acc segs = none
  | [], _, _ => rfl
  | seg :: rest, acc, h => by
    unfold Zoom.find_current_seg
    rw [if_neg (h seg (by simp))]
    exact find_current_seg_eq_none t rest (some seg)
      (fun s hs => h s (by simp [hs]))

/-- C5: on a nonempty segment list satisfying the builder invariants
(`end > start`, sorted by start) whose first segment starts strictly after
time 0, evaluating the zoom at `t = 0` yields exactly scale `1` and center
`(0.5, 0.5)`, for any cursor position. -/
theorem evaluate_zoom_at_time_zero_identity (s₀ : Zoom.ZoomSegment ℝ)
    (rest : List (Zoom.ZoomSegment ℝ)) (cursor_x cursor_y : ℝ)
    (hend : ∀ s ∈ s₀ :: rest, s.start < s.stop)
    (hsorted : (s₀ :: rest).Pairwise (fun a b => a.start ≤ b.start))
    (hpos : 0 < s₀.start) :
    Zoom.evaluate_zoom_at_time (s₀ :: rest) 0 cursor_x cursor_y =
      { x := 1/2, y := 1/2, scale := 1 } := by
  have hstart : ∀ s ∈ s₀ :: rest, 0 < s.start := by
    intro s hs
    rcases List.mem_cons.mp hs with rfl | hs'
    · exact hpos
    · exact lt_of_lt_of_le hpos ((List.pairwise_cons.mp hsorted).1 s hs')
  have hstop : ∀ s ∈ s₀ :: rest, 0 < s.stop :=
    fun s hs => lt_trans (hstart s hs) (hend s hs)
  have heval : Zoom.evaluate_segments (s₀ :: rest) ((0:ℝ)/1000)
      cursor_x cursor_y = (0, 1/2, 1/2) := by
    have h0 : (0:ℝ)/1000 = 0 := by norm_num
    rw [h0]
    unfold Zoom.evaluate_segments
    have hfind : Zoom.find_current_seg 0 none (s₀ :: rest) = none := by
      refine find_current_seg_eq_none 0 (s₀ :: rest) none ?_
      rintro s hs ⟨hgt, -⟩
      exact absurd hgt (not_lt.mpr (hstart s hs).le)
    rw [hfind]
    have hrev : (s₀ :: rest).reverse.find?
        (fun seg => decide (seg.stop ≤ (0:ℝ))) = none := by
      rw [List.find?_eq_none]
      intro x hx
      simp only [decide_eq_true_eq, not_le]
      exact hstop x (List.mem_reverse.mp hx)
    rw [hrev]
  unfold Zoom.evaluate_zoom_at_time
  rw [if_neg (by simp : ¬(s₀ :: rest).isEmpty = true)]
  dsimp only
  rw [heval]
  norm_num

/-- Witness for C5: the single segment `[2, 5]` with amount 2 queried at
`t = 0`. -/
theorem evaluate_zoom_at_time_zero_identity_witness :
    (∀ s ∈ [({ start := 2, stop := 5, amount := 2 } : Zoom.ZoomSegment ℝ)],
      s.start < s.stop) ∧
    ([({ start := 2, stop := 5, amount := 2 } : Zoom.ZoomSegment ℝ)].Pairwise
      (fun a b => a.start ≤ b.start)) ∧
    (0:ℝ) < ({ start := 2, stop := 5, amount := 2 } : Zoom.ZoomSegment ℝ).start ∧
    Zoom.evaluate_zoom_at_time
      [({ start := 2, stop := 5, amount := 2 } : Zoom.ZoomSegment ℝ)] 0 (3/10) (7/10) =
      { x := 1/2, y := 1/2, scale := 1 } := by
  refine ⟨?_, ?_, ?_, ?_⟩
  · intro s hs
    rcases List.mem_singleton.mp hs with rfl
    norm_num
  · exact List.pairwise_singleton _ _
  · norm_num
  · refine evaluate_zoom_at_time_zero_identity _ [] (3/10) (7/10) ?_
      (List.pairwise_singleton _ _) (by norm_num)
    intro s hs
    rcases List.mem_singleton.mp hs with rfl
    norm_num

/-! ## Claim C2: builder output — `end > start`, sorted, non-overlapping -/

/-- An interval emitted by `group_interval` satisfies `start < end`
(it is pushed only under the `end > start` test). -/
theorem group_interval_lt (limit : ℚ) (g : List Zoom.ClickPos) (i : ℚ × ℚ)
    (h : Zoom.group_interval limit g = some i) : i.1 < i.2 := by
  unfold Zoom.group_interval at h
  cases g with
  | nil => exact absurd h (by simp)
  | cons p rest =>
    dsimp only at h
    split at h
    · next hlt =>
      rw [Option.some_inj] at h
      rw [← h]
      exact hlt
    · exact absurd h (by simp)

/-- One step of the merge loop preserves the two invariants: every interval
in the (reversed) accumulator has `start < end`, and each pushed interval
starts more than `MERGE_GAP_THRESHOLD` after the end of every older one. -/
theorem merge_step_invariant (acc : List (ℚ × ℚ)) (i : ℚ × ℚ)
    (hi : i.1 < i.2)
    (h1 : ∀ x ∈ acc, x.1 < x.2)
    (h2 : acc.Pairwise (fun a b => b.2 + Zoom.MERGE_GAP_THRESHOLD < a.1)) :
    (∀ x ∈ Zoom.merge_step acc i, x.1 < x.2) ∧
    (Zoom.merge_step acc i).Pairwise
      (fun a b => b.2 + Zoom.MERGE_GAP_THRESHOLD < a.1) := by
  unfold Zoom.merge_step
  cases acc with
  | nil =>
    refine ⟨?_, by simp⟩
    intro x hx
    rcases List.mem_singleton.mp hx with rfl
    exact hi
  | cons last rest =>
    dsimp only
    obtain ⟨hhead, htail⟩ := List.pairwise_cons.mp h2
    have hlast : last.1 < last.2 := h1 last (by simp)
    split
    · next hmerge =>
      constructor
      · intro x hx
        rcases List.mem_cons.mp hx with rfl | hx'
        · exact lt_of_lt_of_le hlast (le_max_left _ _)
        · exact h1 x (by simp [hx'])
      · exact List.pairwise_cons.mpr ⟨hhead, htail⟩
    · next hpush =>
      push_neg at hpush
      have hMG : (0:ℚ) < Zoom.MERGE_GAP_THRESHOLD := by
        norm_num [Zoom.MERGE_GAP_THRESHOLD]
      constructor
      · intro x hx
        rcases List.mem_cons.mp hx with rfl | hx'
        · exact hi
        · exact h1 x hx'
      · refine List.pairwise_cons.mpr ⟨?_, h2⟩
        intro b hb
        rcases List.mem_cons.mp hb with rfl | hb'
        · exact hpush
        · have := hhead b hb'
          linarith
/-- The merge fold keeps its invariants from any valid accumulator. -/
theorem merge_fold_invariant :
    ∀ (l acc : List (ℚ × ℚ)),
      (∀ i ∈ l, i.1 < i.2) →
      (∀ x ∈ acc, x.1 < x.2) →
      acc.Pairwise (fun a b => b.2 + Zoom.MERGE_GAP_THRESHOLD < a.1) →
      (∀ x ∈ l.foldl Zoom.merge_step acc, x.1 < x.2) ∧
      (l.foldl Zoom.merge_step acc).Pairwise
        (fun a b => b.2 + Zoom.MERGE_GAP_THRESHOLD < a.1)
  | [], acc, _, h1, h2 => ⟨h1, h2⟩
  | i :: l, acc, hl, h1, h2 => by
    obtain ⟨h1', h2'⟩ := merge_step_invariant acc i (hl i (by simp)) h1 h2
    exact merge_fold_invariant l (Zoom.merge_step acc i)
      (fun j hj => hl j (by simp [hj])) h1' h2'

/-- The merged interval list (for any input whose intervals satisfy
`start < end`) has `start < end` everywhere and consecutive gaps of more
than `MERGE_GAP_THRESHOLD`. -/
theorem merge_intervals_invariant (l : List (ℚ × ℚ))
    (hl : ∀ i ∈ l, i.1 < i.2) :
    (∀ x ∈ Zoom.merge_intervals l, x.1 < x.2) ∧
    (Zoom.merge_intervals l).Pairwise
      (fun a b => a.2 + Zoom.MERGE_GAP_THRESHOLD < b.1) := by
  obtain ⟨h1, h2⟩ := merge_fold_invariant l [] hl (by simp) (by simp)
  unfold Zoom.merge_intervals
  constructor
  · intro x hx
    exact h1 x (List.mem_reverse.mp hx)
  · exact List.pairwise_reverse.mpr h2

/-- C2: for every input, the segments returned by `generate_zoom_segments`
satisfy `end > start`, are strictly sorted by `start`, and are pairwise
non-overlapping (each segment ends strictly before the next starts). -/
theorem generate_zoom_segments_invariants (clicks : List Zoom.ClickEvent)
    (moves : List Zoom.MoveEvent) (duration_ms : ℚ) :
    (∀ s ∈ Zoom.generate_zoom_segments clicks moves duration_ms,
      s.start < s.stop) ∧
    (Zoom.generate_zoom_segments clicks moves duration_ms).Pairwise
      (fun a b => a.start < b.start ∧ a.stop < b.start) := by
  have main : ∀ (l : List (ℚ × ℚ)), (∀ i ∈ l, i.1 < i.2) →
      (∀ s ∈ (Zoom.merge_intervals l).filterMap (fun i =>
          if i.2 - i.1 < Zoom.MIN_SEGMENT_DURATION then none
          else some
            ({ start := i.1, stop := i.2, amount := Zoom.AUTO_ZOOM_AMOUNT } :
              Zoom.ZoomSegment ℚ)),
        s.start < s.stop) ∧
      ((Zoom.merge_intervals l).filterMap (fun i =>
          if i.2 - i.1 < Zoom.MIN_SEGMENT_DURATION then none
          else some
            ({ start := i.1, stop := i.2, amount := Zoom.AUTO_ZOOM_AMOUNT } :
              Zoom.ZoomSegment ℚ))).Pairwise
        (fun a b => a.start < b.start ∧ a.stop < b.start) := by
    intro l hl
    obtain ⟨h1, h2⟩ := merge_intervals_invariant l hl
    have hMIN : (0:ℚ) < Zoom.MIN_SEGMENT_DURATION := by
      norm_num [Zoom.MIN_SEGMENT_DURATION]
    have hMG : (0:ℚ) < Zoom.MERGE_GAP_THRESHOLD := by
      norm_num [Zoom.MERGE_GAP_THRESHOLD]
    constructor
    · intro s hs
      obtain ⟨i, hi, hsome⟩ := List.mem_filterMap.mp hs
      split at hsome
      · exact absurd hsome (by simp)
      · next hge =>
        rw [Option.some_inj] at hsome
        rw [← hsome]
        push_neg at hge
        dsimp only
        linarith
    · rw [List.pairwise_filterMap]
      refine h2.imp ?_
      intro a b hab x hx y hy
      split at hx
      · exact absurd hx (by simp)
      · next hga =>
        split at hy
        · exact absurd hy (by simp)
        · next hgb =>
          rw [Option.mem_def, Option.some_inj] at hx hy
          push_neg at hga hgb
          rw [← hx, ← hy]
          dsimp only
          constructor
          · linarith
          · linarith
  unfold Zoom.generate_zoom_segments Zoom.generate_segments_impl
  dsimp only
  split
  · simp
  split
  · simp
  split
  · simp
  split
  · simp
  refine main _ ?_
  intro i hi
  have hmem := (List.perm_insertionSort
    (fun a b : ℚ × ℚ => a.1 ≤ b.1) _).mem_iff.mp hi
  obtain ⟨g, _, hsome⟩ := List.mem_filterMap.mp hmem
  exact group_interval_lt _ g i hsome

/-! ## Claim C6: two nearby clicks produce one merged segment -/

/-- Characterization of `generate_zoom_segments` on exactly two down-clicks
1000 ms apart at the same position (any move list, any duration with both
clicks inside the activity window): whether the two clicks land in one
cluster or two (the spatial test depends on the resolved positions), the
padded, clipped, merged interval is the same single interval, which is then
kept iff it reaches `MIN_SEGMENT_DURATION`. -/
theorem generate_two_clicks_eq (T x y duration_ms : ℚ)
    (moves : List Zoom.MoveEvent) (hT0 : 0 ≤ T)
    (hdur : (T + 1000) / 1000 < Zoom.activity_end_limit (duration_ms / 1000)) :
    Zoom.generate_zoom_segments
      [{ time := T, x := x, y := y, down := true },
       { time := T + 1000, x := x, y := y, down := true }] moves duration_ms =
      (if min (T / 1000 + 3) (Zoom.activity_end_limit (duration_ms / 1000))
          - max (T / 1000 - 2/5) 0 < Zoom.MIN_SEGMENT_DURATION then []
       else [{ start := max (T / 1000 - 2/5) 0,
               stop := min (T / 1000 + 3)
                 (Zoom.activity_end_limit (duration_ms / 1000)),
               amount := Zoom.AUTO_ZOOM_AMOUNT }]) := by
  have ht2 : (T + 1000) / 1000 = T / 1000 + 1 := by ring
  set t1 := T / 1000 with ht1def
  set L := Zoom.activity_end_limit (duration_ms / 1000) with hLdef
  have ht10 : 0 ≤ t1 := by rw [ht1def]; positivity
  have hL : t1 + 1 < L := by rw [← ht2]; exact hdur
  have hd0 : ¬ (duration_ms / 1000 ≤ 0) := by
    intro hle
    have h1 : (1:ℚ) < L := by linarith
    rw [hLdef] at h1
    unfold Zoom.activity_end_limit at h1
    split at h1
    · norm_num [Zoom.STOP_PADDING_SECONDS] at h1
      linarith
    · linarith
  have heps : ¬ (L ≤ Zoom.F64_EPSILON) := by
    intro hle
    unfold Zoom.F64_EPSILON at hle
    have : (1:ℚ)/2^52 < 1 := by norm_num
    linarith
  unfold Zoom.generate_zoom_segments Zoom.generate_segments_impl
  rw [← hLdef, if_neg hd0]
  dsimp only
  rw [if_neg heps]
  have hfilter : List.filter (fun c => c.down && decide (c.time / 1000 < L))
      [({ time := T, x := x, y := y, down := true } : Zoom.ClickEvent),
       { time := T + 1000, x := x, y := y, down := true }] =
      [{ time := T, x := x, y := y, down := true },
       { time := T + 1000, x := x, y := y, down := true }] := by
    have hc1 : T / 1000 < L := by rw [← ht1def]; linarith
    simp only [List.filter_cons, List.filter_nil]
    simp [hc1, hdur]
  rw [hfilter]
  rw [if_neg (by simp : ¬ (List.isEmpty
    [({ time := T, x := x, y := y, down := true } : Zoom.ClickEvent),
     { time := T + 1000, x := x, y := y, down := true }] = true))]
  simp only [List.map_cons, List.map_nil]
  rw [ht2, ← ht1def]
  generalize Zoom.resolve_click_pos moves { time := T, x := x, y := y, down := true } = q1
  generalize Zoom.resolve_click_pos moves { time := T + 1000, x := x, y := y, down := true } = q2
  have hmaxle : (t1 - 2/5) ⊔ 0 ≤ t1 := max_le (by linarith) ht10
  have hstop3 : (t1 - 2/5) ⊔ 0 < (t1 + 3) ⊓ L := lt_of_le_of_lt hmaxle (lt_min (by linarith) (by linarith))
  have hstop2 : (t1 - 2/5) ⊔ 0 < (t1 + 2) ⊓ L := lt_of_le_of_lt hmaxle (lt_min (by linarith) (by linarith))
  have hmax2 : (t1 + 1 - 2/5) ⊔ 0 = t1 + 3/5 := by
    rw [max_eq_left (by linarith)]
    ring
  cases hclose : Zoom.close_to (t1 + 1, q2) (t1, q1) with
  | true =>
    have hb : Zoom.build_groups [(t1, q1), (t1 + 1, q2)] =
        [[(t1, q1), (t1 + 1, q2)]] := by
      unfold Zoom.build_groups
      simp only [List.foldl_cons, List.foldl_nil]
      simp [Zoom.add_to_groups, hclose]
    rw [hb]
    have hgi : Zoom.group_interval L [(t1, q1), (t1 + 1, q2)] =
        some ((t1 - 2/5) ⊔ 0, (t1 + 3) ⊓ L) := by
      unfold Zoom.group_interval
      simp only [List.foldl_cons, List.foldl_nil]
      rw [min_eq_left (by linarith : t1 ≤ t1 + 1),
        max_eq_right (by linarith : t1 ≤ t1 + 1)]
      rw [show t1 + 1 + Zoom.CLICK_POST_PADDING = t1 + 3 by
        norm_num [Zoom.CLICK_POST_PADDING]; ring]
      rw [show t1 - Zoom.CLICK_PRE_PADDING = t1 - 2/5 by
        norm_num [Zoom.CLICK_PRE_PADDING]]
      rw [if_pos hstop3]
    simp only [List.filterMap_cons, List.filterMap_nil, hgi]
    rw [if_neg (by simp : ¬ (List.isEmpty [((t1 - 2/5) ⊔ 0, (t1 + 3) ⊓ L)] = true))]
    have hsort : List.insertionSort (fun a b : ℚ × ℚ => a.1 ≤ b.1)
        [((t1 - 2/5) ⊔ 0, (t1 + 3) ⊓ L)] = [((t1 - 2/5) ⊔ 0, (t1 + 3) ⊓ L)] := by
      simp [List.insertionSort]
    rw [hsort]
    have hmerge : Zoom.merge_intervals [((t1 - 2/5) ⊔ 0, (t1 + 3) ⊓ L)] =
        [((t1 - 2/5) ⊔ 0, (t1 + 3) ⊓ L)] := by
      unfold Zoom.merge_intervals
      simp [Zoom.merge_step]
    rw [hmerge]
    simp only [List.filterMap_cons, List.filterMap_nil]
    by_cases hfin : (t1 + 3) ⊓ L - (t1 - 2/5) ⊔ 0 < Zoom.MIN_SEGMENT_DURATION
    · rw [if_pos hfin, if_pos hfin]
    · rw [if_neg hfin, if_neg hfin]
  | false =>
    have hb : Zoom.build_groups [(t1, q1), (t1 + 1, q2)] =
        [[(t1, q1)], [(t1 + 1, q2)]] := by
      unfold Zoom.build_groups
      simp only [List.foldl_cons, List.foldl_nil]
      simp [Zoom.add_to_groups, hclose]
    rw [hb]
    have hgi1 : Zoom.group_interval L [(t1, q1)] =
        some ((t1 - 2/5) ⊔ 0, (t1 + 2) ⊓ L) := by
      unfold Zoom.group_interval
      simp only [List.foldl_nil]
      rw [show t1 + Zoom.CLICK_POST_PADDING = t1 + 2 by
        norm_num [Zoom.CLICK_POST_PADDING]]
      rw [show t1 - Zoom.CLICK_PRE_PADDING = t1 - 2/5 by
        norm_num [Zoom.CLICK_PRE_PADDING]]
      rw [if_pos hstop2]
    have hgi2 : Zoom.group_interval L [(t1 + 1, q2)] =
        some (t1 + 3/5, (t1 + 3) ⊓ L) := by
      unfold Zoom.group_interval
      simp only [List.foldl_nil]
      rw [show t1 + 1 + Zoom.CLICK_POST_PADDING = t1 + 3 by
        norm_num [Zoom.CLICK_POST_PADDING]; ring]
      rw [show t1 + 1 - Zoom.CLICK_PRE_PADDING = t1 + 1 - 2/5 by
        norm_num [Zoom.CLICK_PRE_PADDING]]
      rw [show (t1 + 1 - 2/5) ⊔ 0 = t1 + 3/5 by rw [max_eq_left (by linarith)]; ring]
      rw [if_pos (lt_min (by linarith) (by linarith))]
    simp only [List.filterMap_cons, List.filterMap_nil, hgi1, hgi2]
    rw [if_neg (by simp : ¬ (List.isEmpty
      [((t1 - 2/5) ⊔ 0, (t1 + 2) ⊓ L), (t1 + 3/5, (t1 + 3) ⊓ L)] = true))]
    have hsort : List.insertionSort (fun a b : ℚ × ℚ => a.1 ≤ b.1)
        [((t1 - 2/5) ⊔ 0, (t1 + 2) ⊓ L), (t1 + 3/5, (t1 + 3) ⊓ L)] =
        [((t1 - 2/5) ⊔ 0, (t1 + 2) ⊓ L), (t1 + 3/5, (t1 + 3) ⊓ L)] := by
      simp only [List.insertionSort, List.orderedInsert]
      rw [if_pos (by dsimp only; linarith [hmaxle] : ((t1 - 2/5) ⊔ 0, (t1 + 2) ⊓ L).1 ≤ (t1 + 3/5, (t1 + 3) ⊓ L).1)]
    rw [hsort]
    have hmerge : Zoom.merge_intervals
        [((t1 - 2/5) ⊔ 0, (t1 + 2) ⊓ L), (t1 + 3/5, (t1 + 3) ⊓ L)] =
        [((t1 - 2/5) ⊔ 0, (t1 + 3) ⊓ L)] := by
      unfold Zoom.merge_intervals
      simp only [List.foldl_cons, List.foldl_nil]
      rw [show Zoom.merge_step [] ((t1 - 2/5) ⊔ 0, (t1 + 2) ⊓ L) =
        [((t1 - 2/5) ⊔ 0, (t1 + 2) ⊓ L)] from rfl]
      unfold Zoom.merge_step
      dsimp only
      have hcond : ((t1 + 3/5, (t1 + 3) ⊓ L) : ℚ × ℚ).1 ≤
          (((t1 - 2/5) ⊔ 0, (t1 + 2) ⊓ L) : ℚ × ℚ).2 + Zoom.MERGE_GAP_THRESHOLD := by
        have hmin : t1 - 1/5 ≤ (t1 + 2) ⊓ L := le_min (by linarith) (by linarith)
        have hMG : Zoom.MERGE_GAP_THRESHOLD = 4/5 := rfl
        dsimp only
        linarith
      rw [if_pos hcond]
      rw [show (((t1 - 2/5) ⊔ 0, (t1 + 2) ⊓ L) : ℚ × ℚ).2 ⊔
          ((t1 + 3/5, (t1 + 3) ⊓ L) : ℚ × ℚ).2 = (t1 + 3) ⊓ L from
        max_eq_right (min_le_min (by linarith) (le_refl L))]
      simp
    rw [hmerge]
    simp only [List.filterMap_cons, List.filterMap_nil]
    by_cases hfin : (t1 + 3) ⊓ L - (t1 - 2/5) ⊔ 0 < Zoom.MIN_SEGMENT_DURATION
    · rw [if_pos hfin, if_pos hfin]
    · rw [if_neg hfin, if_neg hfin]

/-- C6 as amended: two down-clicks 1000 ms apart at the same position,
with the first click at or after the pre-roll padding (`T ≥ 400` ms) and
both before duration minus the stop padding, yield exactly one merged
segment, whose start `T/1000 - 0.4` is strictly before the first click's
time. -/
theorem generate_zoom_segments_two_clicks_merge (T x y duration_ms : ℚ)
    (moves : List Zoom.MoveEvent) (hT : 400 ≤ T)
    (hdur : (T + 1000) / 1000 < Zoom.activity_end_limit (duration_ms / 1000)) :
    Zoom.generate_zoom_segments
      [{ time := T, x := x, y := y, down := true },
       { time := T + 1000, x := x, y := y, down := true }] moves duration_ms =
      [{ start := T / 1000 - 2/5,
         stop := min (T / 1000 + 3)
           (Zoom.activity_end_limit (duration_ms / 1000)),
         amount := Zoom.AUTO_ZOOM_AMOUNT }] ∧
    T / 1000 - 2/5 < T / 1000 := by
  have hT0 : (0:ℚ) ≤ T := le_trans (by norm_num) hT
  have h := generate_two_clicks_eq T x y duration_ms moves hT0 hdur
  have ht1 : (2:ℚ)/5 ≤ T / 1000 := by linarith
  have hL : T / 1000 + 1 < Zoom.activity_end_limit (duration_ms / 1000) := by
    have : (T + 1000) / 1000 = T / 1000 + 1 := by ring
    linarith [hdur, this.symm.le]
  have hmax : (T / 1000 - 2/5) ⊔ 0 = T / 1000 - 2/5 := max_eq_left (by linarith)
  have hfin : ¬ ((T / 1000 + 3) ⊓ Zoom.activity_end_limit (duration_ms / 1000)
      - (T / 1000 - 2/5) ⊔ 0 < Zoom.MIN_SEGMENT_DURATION) := by
    rw [hmax]
    have hmin : T / 1000 + 1 ≤ (T / 1000 + 3) ⊓
        Zoom.activity_end_limit (duration_ms / 1000) :=
      le_min (by linarith) (by linarith)
    have hMIN : Zoom.MIN_SEGMENT_DURATION = 6/5 := rfl
    intro hcon
    rw [hMIN] at hcon
    linarith
  rw [h, if_neg hfin, hmax]
  exact ⟨rfl, by linarith⟩

/-- C6 counterexample: clicks at 100 ms and 1100 ms (1000 ms apart, same
position, both before `duration - stop padding = 1.15 s`) produce *no*
segment at all — the merged interval `[0, 1.15]` falls below
`MIN_SEGMENT_DURATION = 1.2 s` — so the claim fails as stated. -/
theorem generate_zoom_segments_c6_counterexample :
    ((100:ℚ) + 1000) - 100 = 1000 ∧
    (((100:ℚ) + 1000) / 1000 < Zoom.activity_end_limit (1650 / 1000)) ∧
    Zoom.generate_zoom_segments
      [{ time := 100, x := 1/2, y := 1/2, down := true },
       { time := 100 + 1000, x := 1/2, y := 1/2, down := true }] [] 1650 = [] := by
  have hA : Zoom.activity_end_limit (1650 / 1000) = 23/20 := by
    unfold Zoom.activity_end_limit
    rw [if_pos (by rw [show Zoom.STOP_PADDING_SECONDS = 1/2 from rfl]; norm_num)]
    rw [show Zoom.STOP_PADDING_SECONDS = 1/2 from rfl]
    norm_num
  refine ⟨by norm_num, by rw [hA]; norm_num, ?_⟩
  have h := generate_two_clicks_eq 100 (1/2) (1/2) 1650 [] (by norm_num)
    (by rw [hA]; norm_num)
  rw [h, hA]
  rw [if_pos ?_]
  rw [min_eq_right (by norm_num), max_eq_right (by norm_num),
    show Zoom.MIN_SEGMENT_DURATION = 6/5 from rfl]
  norm_num

/-- Witness for the amended C6: clicks at 1000 ms and 2000 ms in a 10 s
recording. -/
theorem generate_zoom_segments_two_clicks_merge_witness :
    ((400:ℚ) ≤ 1000) ∧
    (((1000:ℚ) + 1000) / 1000 < Zoom.activity_end_limit (10000 / 1000)) ∧
    (Zoom.generate_zoom_segments
      [{ time := 1000, x := 3/10, y := 4/10, down := true },
       { time := 1000 + 1000, x := 3/10, y := 4/10, down := true }] [] 10000 =
      [{ start := 1000 / 1000 - 2/5,
         stop := min (1000 / 1000 + 3) (Zoom.activity_end_limit (10000 / 1000)),
         amount := Zoom.AUTO_ZOOM_AMOUNT }] ∧
     (1000:ℚ) / 1000 - 2/5 < 1000 / 1000) := by
  have hA : Zoom.activity_end_limit (10000 / 1000) = 19/2 := by
    unfold Zoom.activity_end_limit
    rw [if_pos (by rw [show Zoom.STOP_PADDING_SECONDS = 1/2 from rfl]; norm_num)]
    rw [show Zoom.STOP_PADDING_SECONDS = 1/2 from rfl]
    norm_num
  exact ⟨by norm_num, by rw [hA]; norm_num,
    generate_zoom_segments_two_clicks_merge 1000 (3/10) (4/10) 10000 []
      (by norm_num) (by rw [hA]; norm_num)⟩


end Drift
